import Mathlib

/-!
Verification development for the SPI-NOR flash high-level analyzer
(`SPIFlashAnalyzer.py`).  The Python class `SPIFlash` is embedded shallowly:

* the process-wide mutable attributes of the `SPIFlash` instance become the
  fields of `SPIFlash.State`;
* the host-supplied settings (`address_bytes`, `min_address`, `max_address`,
  `decode_level`) become `SPIFlash.Config`;
* one call of `SPIFlash.decode` on a `"data"` input frame becomes the pure
  function `SPIFlash.decode : Config → State → ℚ → Nat → State × Option OutFrame`;
* timestamps (Saleae `GraphTime` values, seconds) and the adaptive gap
  threshold are modelled as exact rationals; the Python code rounds through
  IEEE floats, whose values coincide with the rationals on every quantity the
  theorems below touch;
* the internal list of `FakeFrame` objects built by `decode` becomes
  `List FFrame`, and the classification loop at the end of `decode` becomes
  `runFakes` / `handleFake` / `classifyDisable`.

Only `"data"` input frames are modelled: the `else` branch of `decode`
(line 177, reached for non-data input frames) merely echoes the foreign frame
and is out of scope of all claims.
-/

namespace SPIFlash

/-- Table `CONTINUE_COMMANDS` (value is the dummy-clock count). -/
def CONTINUE_COMMANDS (c : Nat) : Option Nat :=
  if c = 0x6b then some 8
  else if c = 0xe7 then some 2
  else if c = 0xeb then some 4
  else none

/-- Table `DATA_COMMANDS` (opcode to mnemonic). -/
def DATA_COMMANDS (c : Nat) : Option String :=
  if c = 0x03 then some "Read"
  else if c = 0x0b then some "Fast Read"
  else if c = 0x5b then some "Read SFDP"
  else if c = 0x6b then some "Quad-Output Fast Read"
  else if c = 0x9e then some "Read JEDEC ID"
  else if c = 0x9f then some "Read JEDEC ID"
  else if c = 0xe7 then some "Quad Word Read"
  else if c = 0xeb then some "Quad Read"
  else if c = 0x02 then some "Page Program"
  else if c = 0x32 then some "Quad Page Program"
  else if c = 0x12 then some "4-byte PAGE PROGRAM"
  else if c = 0x13 then some "4-byte READ"
  else if c = 0x34 then some "4-byte QUAD INPUT PAGE PROGRAM"
  else if c = 0x5C then some "4-byte BLOCK ERASE 32KB"
  else if c = 0xD8 then some "4-byte BLOCK ERASE 64KB"
  else if c = 0x20 then some "4-byte SECTOR ERASE 4KB"
  else if c = 0xE1 then some "4-byte WRITE DYB REGISTER"
  else if c = 0xE3 then some "4-byte PROGRAM PPB"
  else none

/-- Constant `EN4B`. -/
def EN4B : Nat := 0xB7

/-- Constant `EX4B`. -/
def EX4B : Nat := 0xE9

/-- Table `CONTROL_COMMANDS` (opcode to mnemonic). -/
def CONTROL_COMMANDS (c : Nat) : Option String :=
  if c = 0x01 then some "Write Status Register 1"
  else if c = 0x06 then some "Write Enable"
  else if c = 0x04 then some "Write Disable"
  else if c = 0x05 then some "Read Status Register"
  else if c = 0x35 then some "Read Status Register 2"
  else if c = 0x5A then some "Read SFDP Mode"
  else if c = 0x75 then some "Program Suspend"
  else if c = 0xAB then some "Release Power-down / Device ID"
  else if c = EN4B then some "Enable 4 Byte Address"
  else if c = EX4B then some "Exit 4 Byte Address"
  else if c = 0x85 then some "Read Extended Read Parameters"
  else if c = 0xC0 then some "Set Read Parameters"
  else if c = 0x61 then some "Read Read Parameters"
  else none

/-- Lower-case hexadecimal digit character, as Python's `hex` renders one. -/
def hexDigitChar (n : Nat) : Char :=
  if n < 10 then Char.ofNat (48 + n) else Char.ofNat (87 + n)

/-- Hexadecimal digits of `n`, least significant first (the reverse of the
digit string Python's `hex` prints, without the `0x` prefix). -/
def hexRev (n : Nat) : List Char :=
  if n < 16 then [hexDigitChar n]
  else hexDigitChar (n % 16) :: hexRev (n / 16)
  termination_by n
  decreasing_by exact Nat.div_lt_self (by omega) (by omega)

/-- Hex digit string of `n`, most significant first. -/
def hexChars (n : Nat) : List Char := (hexRev n).reverse

/-- Python `format(n, "0wx")` for a nonnegative value: the lower-case hex
string of `n`, left-padded with zeros to at least `w` characters. -/
def pyHexPadNat (w n : Nat) : String :=
  ⟨List.replicate (w - (hexChars n).length) '0' ++ hexChars n⟩

/-- Python `format(i, "0wx")` for a possibly negative `int`: a sign followed
by the zero-padded magnitude, the sign counting toward the width. -/
def pyHexPadInt (w : Nat) (i : Int) : String :=
  if i < 0 then "-" ++ pyHexPadNat (w - 1) i.natAbs else pyHexPadNat w i.toNat

/-- Python `''.join(['0x', hex(command).upper()[2:]])`: `0x` followed by the
upper-case hex digits of `command`. -/
def upperHexName (n : Nat) : String :=
  "0x" ++ String.mk ((hexChars n).map Char.toUpper)

/-- Choices of the `decode_level` setting. -/
inductive DecodeLevel where
  | everything
  | onlyData
  | onlyErrors
  | onlyControl
deriving DecidableEq, Repr

/-- The three result-frame type strings of the analyzer
(`error`, `data_command`, `control_command`). -/
inductive FrameType where
  | error
  | data_command
  | control_command
deriving DecidableEq, Repr

/-- Value of `frame_data["command"]`: the raw opcode integer (kept for error
frames) or a mnemonic string. -/
inductive CmdVal where
  | raw (n : Nat)
  | name (s : String)
deriving DecidableEq, Repr

/-- An emitted `AnalyzerFrame`: type tag, start/end timestamps and the
`frame_data` dictionary entries. -/
structure OutFrame where
  ftype : FrameType
  start_time : Option ℚ
  end_time : Option ℚ
  command : CmdVal
  address : Option String
  address_end : Option String
  num_bytes : Option Int
deriving DecidableEq, Repr

/-- A `FakeFrame` built inside `decode` (type `enable`, `disable` or
`result`; `result` frames always carry one-element `mosi`/`miso` lists). -/
inductive FFrame where
  | enable (t : ℚ)
  | disable (t : Option ℚ)
  | result (mosi miso : Nat)
deriving DecidableEq, Repr

/-- Host-supplied settings of the analyzer.  `max_address = 0` models the
unset (falsy) setting, matching `if self.max_address:`. -/
structure Config where
  address_bytes : Nat
  min_address : Nat
  max_address : Nat
  decode_level : DecodeLevel
deriving DecidableEq, Repr

/-- The mutable attributes of a `SPIFlash` instance.  `address_format` is the
pad width encoded in `self._address_format` (always `2 * _address_bytes` at
the moment the format string was last built).  `command` is `self._command`,
which Python leaves unset until first assigned; the initial value `0` is
never read before a burst start assigns it. -/
structure State where
  start_time : Option ℚ
  address_bytes : Nat
  address_format : Nat
  miso_data : Option (List Nat)
  mosi_data : Option (List Nat)
  empty_result_count : Nat
  last_cs : Nat
  last_time : Option ℚ
  transaction : Nat
  clock_count : Nat
  mosi_out : Nat
  miso_in : Nat
  quad_data : Nat
  quad_start : Option Nat
  continuous : Bool
  dummy : Nat
  fastest_cs : ℚ
  command : Nat
deriving DecidableEq, Repr

/-- The state `__init__` establishes. -/
def initState : State where
  start_time := none
  address_bytes := 3
  address_format := 6
  miso_data := none
  mosi_data := none
  empty_result_count := 0
  last_cs := 1
  last_time := none
  transaction := 0
  clock_count := 0
  mosi_out := 0
  miso_in := 0
  quad_data := 0
  quad_start := none
  continuous := false
  dummy := 0
  fastest_cs := 2000000
  command := 0

/-- Reset of the accumulation buffers after a burst is classified
(`self._miso_data = None; self._mosi_data = None`). -/
def resetBufs (s : State) : State :=
  { s with miso_data := none, mosi_data := none }

/-- The address loop of `decode`: big-endian accumulation of the `ab` bytes
following the opcode (`frame_address <<= 8; frame_address += ...`). -/
def frameAddress (l : List Nat) (ab : Nat) : Nat :=
  ((l.drop 1).take ab).foldl (fun a b => (a <<< 8) + b) 0

/-- The burst-classification block of `decode` (lines 198 to 244), entered
with the non-`None`, non-empty accumulated `mosi` sequence `l`.  Returns the
updated state (buffers reset, address width possibly toggled), the computed
`frame_type` and the constructed `our_frame`. -/
def classifyDisable (cfg : Config) (s : State) (l : List Nat) (tEnd : Option ℚ) :
    State × Option FrameType × Option OutFrame :=
  let command := l.headD 0
  match DATA_COMMANDS command with
  | some mnem =>
    if l.length < 1 + s.address_bytes then
      (resetBufs s, some .error,
        some ⟨.error, s.start_time, tEnd, .raw command, none, none, none⟩)
    else
      let addr := frameAddress l s.address_bytes
      if 0 < cfg.min_address ∧ addr < cfg.min_address then
        (resetBufs s, none, none)
      else if cfg.max_address ≠ 0 ∧ cfg.max_address < addr then
        (resetBufs s, none, none)
      else
        let non_data_bytes : Nat :=
          2 + (if mnem = "Fast Read" then 1 else 0)
            + (if mnem = "Quad Read" then 2 else 0)
        let num : Int := (l.length : Int) - (cfg.address_bytes : Int) - (non_data_bytes : Int)
        (resetBufs s, some .data_command,
          some ⟨.data_command, s.start_time, tEnd, .name mnem,
                some (pyHexPadNat s.address_format addr),
                some (pyHexPadInt s.address_format ((addr : Int) + num)),
                some num⟩)
  | none =>
    let cname : CmdVal :=
      match CONTROL_COMMANDS command with
      | some mnem => .name mnem
      | none => .name (upperHexName command)
    let s :=
      if command = EN4B then { s with address_bytes := 4, address_format := 8 }
      else if command = EX4B then { s with address_bytes := 3, address_format := 6 }
      else s
    (resetBufs s, some .control_command,
      some ⟨.control_command, s.start_time, tEnd, cname, none, none, none⟩)

/-- The `decode_level` guards (lines 245 to 250): `true` when the three
`continue` statements skip the `output = our_frame` assignment. -/
def suppress (lvl : DecodeLevel) (ft : Option FrameType) : Bool :=
  match lvl with
  | .everything => false
  | .onlyData => ft = some .control_command
  | .onlyErrors => ¬ ft = some .error
  | .onlyControl => ¬ ft = some .control_command

/-- One iteration of the `for fake_frame in frames:` loop. -/
def handleFake (cfg : Config) (acc : State × Option OutFrame) (f : FFrame) :
    State × Option OutFrame :=
  let (s, out) := acc
  match f with
  | .enable t =>
    ({ s with start_time := some t, miso_data := some [], mosi_data := some [] }, out)
  | .result mo mi =>
    match s.miso_data, s.mosi_data with
    | some misoD, some mosiD =>
      ({ s with miso_data := some (misoD ++ [mi]), mosi_data := some (mosiD ++ [mo]) }, out)
    | _, _ =>
      ({ s with empty_result_count := s.empty_result_count + 1 }, out)
  | .disable t =>
    match s.mosi_data, s.miso_data with
    | some (c :: rest), some (_ :: _) =>
      let r := classifyDisable cfg s (c :: rest) t
      if suppress cfg.decode_level r.2.1 then (r.1, out) else (r.1, r.2.2)
    | _, _ => (s, out)

/-- The whole classification loop, started with `output = None`. -/
def runFakes (cfg : Config) (s : State) (fs : List FFrame) : State × Option OutFrame :=
  fs.foldl (handleFake cfg) (s, none)

/-- The inter-sample gap in nanoseconds: `diff` after line 115.  The Python
truthiness test `if self._last_time:` is modelled as an `Option` match. -/
def gapOf (s : State) (t : ℚ) : ℚ :=
  (match s.last_time with
   | some lt => t - lt
   | none => s.fastest_cs) * 1000000000

/-- Bit/nibble accumulation for one chip-select-asserted sample
(lines 145 to 174), returning the updated state and the flushed
`result` frames. -/
def accumulate (s : State) (data : Nat) : State × List FFrame :=
  let inSingle :=
    match s.quad_start with
    | none => true
    | some q => decide (s.clock_count < q)
  if inSingle then
    let mo := (s.mosi_out <<< 1) ||| (data &&& 0x1)
    let mi := (s.miso_in <<< 1) ||| ((data >>> 1) &&& 0x1)
    if s.clock_count % 8 = 7 then
      let s' :=
        if s.clock_count = 7 then
          match CONTINUE_COMMANDS mo with
          | some d => { s with command := mo, quad_start := some 8, dummy := d }
          | none => { s with command := mo }
        else s
      ({ s' with mosi_out := 0, miso_in := 0 }, [.result mo mi])
    else
      ({ s with mosi_out := mo, miso_in := mi }, [])
  else
    let qd := (s.quad_data <<< 4) ||| (data &&& 0xf)
    if s.clock_count % 2 = 1 then
      let fr : FFrame :=
        if ¬ (15 < s.clock_count ∧ s.clock_count ≤ 15 + s.dummy) then
          .result qd 0
        else
          .result 0 qd
      let s' :=
        if (CONTINUE_COMMANDS s.command).isSome ∧ s.clock_count = 15 then
          { s with continuous := decide ((qd &&& 0xf0) = 0xa0) }
        else s
      ({ s' with quad_data := 0 }, [fr])
    else
      ({ s with quad_data := qd }, [])

/-- Burst-start handling (lines 119 to 138), applied to the state whose
`fastest_cs` was already tightened: emit `disable`/`enable` fake frames,
bump the transaction counter, and either reset the assembler state (fresh
opcode-bearing burst) or pre-seed the clock counter and emit the synthetic
opcode byte pair (continuous mode). -/
def burstStart (s1 : State) (t : ℚ) : State × List FFrame :=
  let fr : List FFrame :=
    (if 0 < s1.transaction then [.disable s1.last_time] else []) ++ [.enable t]
  let sB := { s1 with transaction := s1.transaction + 1, clock_count := 0 }
  if sB.continuous then
    ({ sB with clock_count := 8 }, fr ++ [.result sB.command 0])
  else
    ({ sB with command := 0, quad_start := none, dummy := 0,
               mosi_out := 0, miso_in := 0 }, fr)

/-- One call of `SPIFlash.decode` on a `"data"` input frame carrying the
multiplexed word `data` at timestamp `t` (seconds). -/
def decode (cfg : Config) (s : State) (t : ℚ) (data : Nat) : State × Option OutFrame :=
  let cs := data >>> 15
  let diff := gapOf s t
  let s1 := { s with fastest_cs := min (diff * 4) s.fastest_cs }
  let sfr := if diff > s1.fastest_cs ∧ cs = 0 then burstStart s1 t else (s1, [])
  let s3 := { sfr.1 with last_time := some t }
  if cs = 1 then (s3, none)
  else
    let acc := accumulate s3 data
    let s5 := { acc.1 with clock_count := acc.1.clock_count + 1 }
    runFakes cfg s5 (sfr.2 ++ acc.2)

/-- Fold `decode` over a list of data words, all carrying timestamp `0`,
keeping only the state. -/
def feedBits (cfg : Config) (s : State) (l : List Nat) : State :=
  l.foldl (fun s d => (decode cfg s 0 d).1) s

/-- The eight single-lane samples of one host-out byte, MSB first: sample
`data` words whose bit 0 is the transmitted bit, with chip select asserted
and the device-in line low. -/
def byteBits (b : Nat) : List Nat :=
  [(b >>> 7) &&& 1, (b >>> 6) &&& 1, (b >>> 5) &&& 1, (b >>> 4) &&& 1,
   (b >>> 3) &&& 1, (b >>> 2) &&& 1, (b >>> 1) &&& 1, b &&& 1]

/-- The single-lane sample stream of a list of host-out bytes. -/
def byteStreamBits (bs : List Nat) : List Nat :=
  bs.foldr (fun b acc => byteBits b ++ acc) []

/-! ### General-purpose lemmas -/

theorem shiftin_eq (a d : Nat) (hd : d ≤ 1) : (a <<< 1) ||| d = 2 * a + d := by
  interval_cases d
  · rw [Nat.or_zero, Nat.shiftLeft_eq]; ring
  · have h1 : a <<< 1 = Nat.bit false a := by
      simp [Nat.bit_val, Nat.shiftLeft_eq]; ring
    have h2 : (1 : Nat) = Nat.bit true 0 := by simp [Nat.bit_val]
    rw [h1, h2, Nat.lor_bit]
    simp [Nat.bit_val]

theorem small_shr15 (b : Nat) (h : b ≤ 1) : b >>> 15 = 0 := by
  rw [Nat.shiftRight_eq_div_pow]
  exact Nat.div_eq_of_lt (lt_of_le_of_lt h (by norm_num))

theorem and_one_le_one (d : Nat) : d &&& 1 ≤ 1 := Nat.and_le_right

theorem hexRev_lt (n : Nat) (h : n < 16) : hexRev n = [hexDigitChar n] := by
  rw [hexRev]; simp [h]

theorem hexRev_ge (n : Nat) (h : 16 ≤ n) :
    hexRev n = hexDigitChar (n % 16) :: hexRev (n / 16) := by
  rw [hexRev]; simp [Nat.not_lt.mpr h]

/-! ### Shape lemmas for `decode`

The conditions of the two `if`s of `decode` compare exact rationals; these
lemmas discharge them once from explicit hypotheses so that later proofs
never need to evaluate rational comparisons by reduction. -/

theorem decode_cs1 (cfg : Config) (s : State) (t : ℚ) (data : Nat)
    (hcs : data >>> 15 = 1) :
    decode cfg s t data =
      ({ s with fastest_cs := min (gapOf s t * 4) s.fastest_cs,
                last_time := some t }, none) := by
  simp only [decode, hcs]
  norm_num

theorem decode_noStart (cfg : Config) (s : State) (t : ℚ) (data : Nat)
    (hng : ¬ gapOf s t > min (gapOf s t * 4) s.fastest_cs)
    (hcs : data >>> 15 ≠ 1) :
    decode cfg s t data =
      (let s3 := { s with fastest_cs := min (gapOf s t * 4) s.fastest_cs,
                          last_time := some t }
       let acc := accumulate s3 data
       runFakes cfg { acc.1 with clock_count := acc.1.clock_count + 1 } acc.2) := by
  have hne : ¬ (gapOf s t > min (gapOf s t * 4) s.fastest_cs ∧ data >>> 15 = 0) :=
    fun h => hng h.1
  simp only [decode]
  rw [if_neg hne, if_neg hcs]
  rfl

theorem decode_start (cfg : Config) (s : State) (t : ℚ) (data : Nat)
    (hg : gapOf s t > min (gapOf s t * 4) s.fastest_cs)
    (hcs : data >>> 15 = 0) :
    decode cfg s t data =
      (let bs := burstStart { s with fastest_cs := min (gapOf s t * 4) s.fastest_cs } t
       let s3 := { bs.1 with last_time := some t }
       let acc := accumulate s3 data
       runFakes cfg { acc.1 with clock_count := acc.1.clock_count + 1 } (bs.2 ++ acc.2)) := by
  have hc : gapOf s t > min (gapOf s t * 4) s.fastest_cs ∧ data >>> 15 = 0 := ⟨hg, hcs⟩
  have hcs1 : data >>> 15 ≠ 1 := by rw [hcs]; norm_num
  simp only [decode]
  rw [if_pos hc, if_neg hcs1]

/-- For a sample carrying the same timestamp as the previous one, the gap is
zero and no burst start fires (the tightened threshold is nonnegative). -/
theorem noStart_of_same_time (s : State) (t : ℚ) (hlast : s.last_time = some t)
    (hf : 0 ≤ s.fastest_cs) :
    ¬ gapOf s t > min (gapOf s t * 4) s.fastest_cs := by
  have hg : gapOf s t = 0 := by simp [gapOf, hlast]
  rw [hg]
  simp [hf]

/-- On the first sample the burst-start condition holds whenever the
chip-select bit is asserted: the gap evaluates to the threshold scaled by
the nanosecond factor, which exceeds the (unchanged) threshold. -/
theorem first_sample_gap_gt (t : ℚ) :
    gapOf initState t > min (gapOf initState t * 4) initState.fastest_cs := by
  have hgap : gapOf initState t = 2000000 * 1000000000 := rfl
  rw [hgap]
  have : min ((2000000 * 1000000000 : ℚ) * 4) initState.fastest_cs
      = initState.fastest_cs := min_eq_right (by norm_num [initState])
  rw [this]
  norm_num [initState]

/-! ### Claim C6 (corrected) -/

/-- Claim C6, as stated, is false: on the very first sample the computed gap
does *not* equal the threshold.  The fallback value `self._fastest_cs` is
multiplied by the nanosecond factor together with the conversion of real
gaps (line 115), so the gap is `threshold * 10^9`, and with chip select
asserted (`cs = 0`, here `data = 0`) a burst start *is* detected: the
transaction counter leaves `0`. -/
theorem c6_counterexample :
    gapOf initState 0 ≠ initState.fastest_cs ∧
    (decode ⟨3, 0, 0, .everything⟩ initState 0 0).1.transaction = 1 := by
  constructor
  · norm_num [gapOf, initState]
  · rw [decode_start _ _ _ _ (first_sample_gap_gt 0) rfl]
    norm_num [burstStart, initState, accumulate, runFakes, handleFake]

/-- Claim C6, amended: on the very first sample the computed gap equals the
current threshold *times 10^9* (the nanosecond conversion is also applied to
the threshold fallback), which is strictly greater than the threshold; hence
a burst start *is* detected whenever the chip-select bit is 0, and is not
detected when it is 1. -/
theorem c6_first_sample_amended (cfg : Config) (t : ℚ) (data : Nat) :
    gapOf initState t = initState.fastest_cs * 1000000000 ∧
    (data >>> 15 = 0 →
      (decode cfg initState t data).1.transaction = 1 ∧
      (decode cfg initState t data).1.start_time = some t) ∧
    (data >>> 15 = 1 →
      (decode cfg initState t data).1.transaction = 0 ∧
      (decode cfg initState t data).2 = none) := by
  refine ⟨rfl, fun h0 => ?_, fun h1 => ?_⟩
  · rw [decode_start _ _ _ _ (first_sample_gap_gt t) h0]
    norm_num [burstStart, initState, accumulate, runFakes, handleFake]
  · rw [decode_cs1 _ _ _ _ h1]
    exact ⟨rfl, rfl⟩

/-- Witness for `c6_first_sample_amended` at `data = 0` (chip select
asserted) and `data = 32768` (chip select deasserted), both at time 0. -/
theorem c6_witness :
    gapOf initState 0 = initState.fastest_cs * 1000000000 ∧
    (decode ⟨3, 0, 0, .everything⟩ initState 0 0).1.transaction = 1 ∧
    (decode ⟨3, 0, 0, .everything⟩ initState 0 32768).1.transaction = 0 :=
  ⟨(c6_first_sample_amended ⟨3, 0, 0, .everything⟩ 0 0).1,
   ((c6_first_sample_amended ⟨3, 0, 0, .everything⟩ 0 0).2.1 (by decide)).1,
   ((c6_first_sample_amended ⟨3, 0, 0, .everything⟩ 0 32768).2.2 (by decide)).1⟩

/-! ### Claim C10 (confirmed) -/

/-- Claim C10: for a (16-bit) sample word whose chip-select bit 15 is 1,
`decode` returns `None` and the only state changes are the last-sample
timestamp and the adaptive gap threshold; buffers, bit accumulators, clock
counter, stored opcode, address width, continuous flag and transaction
counter are untouched (the result states all other fields verbatim). -/
theorem c10_deasserted_frame (cfg : Config) (s : State) (t : ℚ) (data : Nat)
    (hlt : data < 65536) (hbit : (data >>> 15) &&& 1 = 1) :
    decode cfg s t data =
      ({ s with fastest_cs := min (gapOf s t * 4) s.fastest_cs,
                last_time := some t }, none) := by
  have hcs : data >>> 15 = 1 := by
    have h2 : data >>> 15 < 2 := by
      rw [Nat.shiftRight_eq_div_pow]
      have : (2 : Nat) ^ 15 = 32768 := by norm_num
      rw [this]
      omega
    rw [Nat.and_one_is_mod] at hbit
    omega
  exact decode_cs1 cfg s t data hcs

/-- Witness for `c10_deasserted_frame` at `data = 32768`, `t = 0`, from the
initial state. -/
theorem c10_witness :
    decode ⟨3, 0, 0, .everything⟩ initState 0 32768 =
      ({ initState with
          fastest_cs := min (gapOf initState 0 * 4) initState.fastest_cs,
          last_time := some 0 }, none) :=
  c10_deasserted_frame ⟨3, 0, 0, .everything⟩ initState 0 32768 (by decide) (by decide)

/-! ### Claim C5 (confirmed) -/

/-- Claim C5: a completed burst whose first host-to-device byte is a known
data opcode but whose sequence is shorter than `1 + current address width`
classifies to an Error-category record (with the raw opcode, no address
fields) — never a Data record — and both accumulation buffers are reset to
`None`, so the next burst is classified independently.  The classifier is a
total function, so no exception can occur. -/
theorem c5_truncated_data (cfg : Config) (s : State) (c : Nat) (rest : List Nat)
    (tEnd : Option ℚ) (hd : (DATA_COMMANDS c).isSome)
    (hlen : (c :: rest).length < 1 + s.address_bytes) :
    classifyDisable cfg s (c :: rest) tEnd =
      ({ s with miso_data := none, mosi_data := none }, some .error,
        some ⟨.error, s.start_time, tEnd, .raw c, none, none, none⟩) := by
  obtain ⟨mnem, hm⟩ := Option.isSome_iff_exists.mp hd
  simp only [classifyDisable, List.headD_cons, hm]
  rw [if_pos hlen]
  rfl

/-- Witness for `c5_truncated_data`: opcode `0x03` (Read) followed by a
single address byte under address width 3. -/
theorem c5_witness :
    classifyDisable ⟨3, 0, 0, .everything⟩ initState [0x03, 0x00] (some 1) =
      ({ initState with miso_data := none, mosi_data := none }, some .error,
        some ⟨.error, none, some 1, .raw 0x03, none, none, none⟩) :=
  c5_truncated_data ⟨3, 0, 0, .everything⟩ initState 0x03 [0x00] (some 1)
    (by decide) (by decide)

/-! ### Claim C7 (corrected) -/

/-- Claim C7, as stated, is false for the `Only Data` level: an Error record
is *not* suppressed there.  With `decode_level = Only Data`, classifying a
truncated Read burst emits the Error record as the call's output. -/
theorem c7_counterexample :
    (handleFake ⟨3, 0, 0, .onlyData⟩
        ({ initState with start_time := some 0,
                          mosi_data := some [0x03], miso_data := some [0] }, none)
        (.disable (some 1))).2 =
      some ⟨.error, some 0, some 1, .raw 0x03, none, none, none⟩ := by
  simp [handleFake, classifyDisable, suppress, resetBufs, DATA_COMMANDS, initState]

/-- Claim C7, amended: `Everything` emits every classified record;
`Only Errors` emits exactly the Error records; `Only Control` emits exactly
the Control records; but `Only Data` suppresses *only Control* records —
Data and Error records are both emitted at that level. -/
theorem c7_level_filter_amended (cfg : Config) (s : State) (out : Option OutFrame)
    (tEnd : Option ℚ) (c m0 : Nat) (rest mrest : List Nat)
    (hmosi : s.mosi_data = some (c :: rest)) (hmiso : s.miso_data = some (m0 :: mrest)) :
    (handleFake cfg (s, out) (.disable tEnd)).2 =
      (let r := classifyDisable cfg s (c :: rest) tEnd
       match cfg.decode_level with
       | .everything => r.2.2
       | .onlyData => if r.2.1 = some .control_command then out else r.2.2
       | .onlyErrors => if r.2.1 = some .error then r.2.2 else out
       | .onlyControl => if r.2.1 = some .control_command then r.2.2 else out) := by
  simp only [handleFake, hmosi, hmiso]
  cases hl : cfg.decode_level <;>
    simp only [suppress, hl] <;>
    split <;>
    simp_all [suppress]

/-- Witness for `c7_level_filter_amended`: under `Only Errors`, a truncated
Read burst's Error record is emitted. -/
theorem c7_witness :
    (handleFake ⟨3, 0, 0, .onlyErrors⟩
        ({ initState with start_time := some 0,
                          mosi_data := some [0x03], miso_data := some [0] }, none)
        (.disable (some 1))).2 =
      some ⟨.error, some 0, some 1, .raw 0x03, none, none, none⟩ := by
  rw [c7_level_filter_amended ⟨3, 0, 0, .onlyErrors⟩ _ none (some 1) 0x03 0 [] [] rfl rfl]
  simp [classifyDisable, resetBufs, DATA_COMMANDS, initState]

/-! ### Claim C1 (corrected) -/

/-- Claim C1, as stated, is false: at clock-edge index 17 with dummy count 0
(so the edge index is strictly greater than `15 + dummy`), the flushed quad
byte `0xf` is appended to the *host-to-device* sequence and `0` to the
device-to-host sequence — the opposite of the claimed direction.  The guard
on line 165 sends only the window `15 < count <= 15 + dummy` to
device-to-host. -/
theorem c1_counterexample :
    (decode ⟨3, 0, 0, .everything⟩
        { initState with start_time := some 0, miso_data := some [],
                         mosi_data := some [], last_time := some 0,
                         transaction := 1, clock_count := 17,
                         quad_start := some 8, fastest_cs := 0,
                         command := 0x6b } 0 15).1.mosi_data = some [15] ∧
    (decode ⟨3, 0, 0, .everything⟩
        { initState with start_time := some 0, miso_data := some [],
                         mosi_data := some [], last_time := some 0,
                         transaction := 1, clock_count := 17,
                         quad_start := some 8, fastest_cs := 0,
                         command := 0x6b } 0 15).1.miso_data = some [0] := by
  rw [decode_noStart _ _ _ _ (noStart_of_same_time _ 0 rfl le_rfl) (by decide)]
  norm_num [accumulate, runFakes, handleFake, initState, CONTINUE_COMMANDS]

/-- Claim C1, amended: in the quad-lane phase the direction is the reverse
of the claim's: a flushed byte whose clock-edge index lies strictly inside
the dummy window (greater than 15 and at most `15 + dummy`) is appended to
the device-to-host sequence (with 0 to host-to-device); every other flushed
quad byte — including every byte with edge index strictly greater than
`15 + dummy` — is appended to the host-to-device sequence (with 0 to
device-to-host). -/
theorem c1_quad_direction_amended (cfg : Config) (s : State) (t : ℚ) (data : Nat)
    (q : Nat) (l m : List Nat)
    (hq : s.quad_start = some q) (hcc : q ≤ s.clock_count)
    (hodd : s.clock_count % 2 = 1)
    (hlast : s.last_time = some t) (hf : 0 ≤ s.fastest_cs)
    (hcs : data >>> 15 = 0)
    (hl : s.mosi_data = some l) (hm : s.miso_data = some m) :
    if 15 < s.clock_count ∧ s.clock_count ≤ 15 + s.dummy then
      (decode cfg s t data).1.miso_data = some (m ++ [(s.quad_data <<< 4) ||| (data &&& 0xf)]) ∧
      (decode cfg s t data).1.mosi_data = some (l ++ [0])
    else
      (decode cfg s t data).1.mosi_data = some (l ++ [(s.quad_data <<< 4) ||| (data &&& 0xf)]) ∧
      (decode cfg s t data).1.miso_data = some (m ++ [0]) := by
  have hcs1 : data >>> 15 ≠ 1 := by rw [hcs]; norm_num
  rw [decode_noStart cfg s t data (noStart_of_same_time s t hlast hf) hcs1]
  simp only [accumulate, hq, Nat.not_lt.mpr hcc, decide_eq_true_eq]
  by_cases hwin : 15 < s.clock_count ∧ s.clock_count ≤ 15 + s.dummy
  · rw [if_pos hwin]
    by_cases hcmd : (CONTINUE_COMMANDS s.command).isSome ∧ s.clock_count = 15
    · exact absurd hcmd.2 (by omega)
    · simp [hodd, hwin, hcmd, runFakes, handleFake, hl, hm]
  · rw [if_neg hwin]
    by_cases hcmd : (CONTINUE_COMMANDS s.command).isSome ∧ s.clock_count = 15
    · simp [hodd, hwin, hcmd, runFakes, handleFake, hl, hm]
    · simp [hodd, hwin, hcmd, runFakes, handleFake, hl, hm]

/-- Witness for `c1_quad_direction_amended`: a byte flushed at edge index 17
inside the dummy window (dummy count 8) goes to the device-to-host
sequence. -/
theorem c1_witness :
    (decode ⟨3, 0, 0, .everything⟩
        { initState with start_time := some 0, miso_data := some [],
                         mosi_data := some [], last_time := some 0,
                         transaction := 1, clock_count := 17,
                         quad_start := some 8, dummy := 8, quad_data := 0xa,
                         fastest_cs := 0, command := 0x6b } 0 5).1.miso_data
      = some [0xa5] ∧
    (decode ⟨3, 0, 0, .everything⟩
        { initState with start_time := some 0, miso_data := some [],
                         mosi_data := some [], last_time := some 0,
                         transaction := 1, clock_count := 17,
                         quad_start := some 8, dummy := 8, quad_data := 0xa,
                         fastest_cs := 0, command := 0x6b } 0 5).1.mosi_data
      = some [0] := by
  have h := c1_quad_direction_amended ⟨3, 0, 0, .everything⟩
    { initState with start_time := some 0, miso_data := some [],
                     mosi_data := some [], last_time := some 0,
                     transaction := 1, clock_count := 17,
                     quad_start := some 8, dummy := 8, quad_data := 0xa,
                     fastest_cs := 0, command := 0x6b } 0 5 8 [] []
    rfl (by decide) (by decide) rfl le_rfl (by decide) rfl rfl
  rw [if_pos (by decide)] at h
  simpa using h

/-! ### Claim C2 (corrected) -/

/-- Mnemonic comparison on line 218 pins down the opcode: among the data
commands, only opcode `0x0b` carries the mnemonic `Fast Read`. -/
theorem data_mnem_fastRead (c : Nat) (mnem : String) (h : DATA_COMMANDS c = some mnem) :
    (mnem = "Fast Read") ↔ c = 0x0b := by
  constructor
  · rintro rfl
    unfold DATA_COMMANDS at h
    rcases eq_or_ne c 0x03 with rfl | h1
    · simp at h
    rw [if_neg h1] at h
    rcases eq_or_ne c 0x0b with rfl | h2
    · rfl
    rw [if_neg h2] at h
    rcases eq_or_ne c 0x5b with rfl | h3
    · simp at h
    rw [if_neg h3] at h
    rcases eq_or_ne c 0x6b with rfl | h4
    · simp at h
    rw [if_neg h4] at h
    rcases eq_or_ne c 0x9e with rfl | h5
    · simp at h
    rw [if_neg h5] at h
    rcases eq_or_ne c 0x9f with rfl | h6
    · simp at h
    rw [if_neg h6] at h
    rcases eq_or_ne c 0xe7 with rfl | h7
    · simp at h
    rw [if_neg h7] at h
    rcases eq_or_ne c 0xeb with rfl | h8
    · simp at h
    rw [if_neg h8] at h
    rcases eq_or_ne c 0x02 with rfl | h9
    · simp at h
    rw [if_neg h9] at h
    rcases eq_or_ne c 0x32 with rfl | h10
    · simp at h
    rw [if_neg h10] at h
    rcases eq_or_ne c 0x12 with rfl | h11
    · simp at h
    rw [if_neg h11] at h
    rcases eq_or_ne c 0x13 with rfl | h12
    · simp at h
    rw [if_neg h12] at h
    rcases eq_or_ne c 0x34 with rfl | h13
    · simp at h
    rw [if_neg h13] at h
    rcases eq_or_ne c 0x5C with rfl | h14
    · simp at h
    rw [if_neg h14] at h
    rcases eq_or_ne c 0xD8 with rfl | h15
    · simp at h
    rw [if_neg h15] at h
    rcases eq_or_ne c 0x20 with rfl | h16
    · simp at h
    rw [if_neg h16] at h
    rcases eq_or_ne c 0xE1 with rfl | h17
    · simp at h
    rw [if_neg h17] at h
    rcases eq_or_ne c 0xE3 with rfl | h18
    · simp at h
    rw [if_neg h18] at h
    exact Option.noConfusion h
  · rintro rfl
    rw [show DATA_COMMANDS 0x0b = some "Fast Read" from rfl] at h
    injection h with h
    rw [h]

/-- Mnemonic comparison on line 220 pins down the opcode: among the data
commands, only opcode `0xeb` carries the mnemonic `Quad Read`. -/
theorem data_mnem_quadRead (c : Nat) (mnem : String) (h : DATA_COMMANDS c = some mnem) :
    (mnem = "Quad Read") ↔ c = 0xeb := by
  constructor
  · rintro rfl
    unfold DATA_COMMANDS at h
    rcases eq_or_ne c 0x03 with rfl | h1
    · simp at h
    rw [if_neg h1] at h
    rcases eq_or_ne c 0x0b with rfl | h2
    · simp at h
    rw [if_neg h2] at h
    rcases eq_or_ne c 0x5b with rfl | h3
    · simp at h
    rw [if_neg h3] at h
    rcases eq_or_ne c 0x6b with rfl | h4
    · simp at h
    rw [if_neg h4] at h
    rcases eq_or_ne c 0x9e with rfl | h5
    · simp at h
    rw [if_neg h5] at h
    rcases eq_or_ne c 0x9f with rfl | h6
    · simp at h
    rw [if_neg h6] at h
    rcases eq_or_ne c 0xe7 with rfl | h7
    · simp at h
    rw [if_neg h7] at h
    rcases eq_or_ne c 0xeb with rfl | h8
    · rfl
    rw [if_neg h8] at h
    rcases eq_or_ne c 0x02 with rfl | h9
    · simp at h
    rw [if_neg h9] at h
    rcases eq_or_ne c 0x32 with rfl | h10
    · simp at h
    rw [if_neg h10] at h
    rcases eq_or_ne c 0x12 with rfl | h11
    · simp at h
    rw [if_neg h11] at h
    rcases eq_or_ne c 0x13 with rfl | h12
    · simp at h
    rw [if_neg h12] at h
    rcases eq_or_ne c 0x34 with rfl | h13
    · simp at h
    rw [if_neg h13] at h
    rcases eq_or_ne c 0x5C with rfl | h14
    · simp at h
    rw [if_neg h14] at h
    rcases eq_or_ne c 0xD8 with rfl | h15
    · simp at h
    rw [if_neg h15] at h
    rcases eq_or_ne c 0x20 with rfl | h16
    · simp at h
    rw [if_neg h16] at h
    rcases eq_or_ne c 0xE1 with rfl | h17
    · simp at h
    rw [if_neg h17] at h
    rcases eq_or_ne c 0xE3 with rfl | h18
    · simp at h
    rw [if_neg h18] at h
    exact Option.noConfusion h
  · rintro rfl
    rw [show DATA_COMMANDS 0xeb = some "Quad Read" from rfl] at h
    injection h with h
    rw [h]

/-- Claim C2, as stated, is false: after the 4-byte-address mode has been
enabled (state address width 4) while the `address_bytes` *setting* is 3, a
six-byte `0x13` burst reports `num_bytes = 6 - 3 - 2 = 1` and end address
`00100001`, not the `6 - (4 + 2) = 0` the claim's formula (based on the
current address-width mode) predicts: line 222 subtracts the setting, not
the mode. -/
theorem c2_counterexample :
    ((classifyDisable ⟨3, 0, 0, .everything⟩
        { initState with address_bytes := 4, address_format := 8, start_time := some 0 }
        [0x13, 0x00, 0x10, 0x00, 0x00, 0xAA] (some 2)).2.2.map fun r => r.num_bytes)
      = some (some 1) ∧
    ((6 : Int) - (4 + 2)) ≠ 1 := by
  refine ⟨?_, by norm_num⟩
  norm_num [classifyDisable, DATA_COMMANDS, frameAddress, resetBufs, initState]
  decide

/-- Claim C2, amended: for a completed data-command burst that is long
enough and passes the address filter, the reported payload byte count equals
the total host-to-device length minus (the *configured* `address_bytes`
setting + 2), further minus 1 for opcode `0x0b` and minus 2 for opcode
`0xeb`; the reported end address is the resolved start address plus that
payload count.  (The truncation check and the address resolution use the
current address-width mode; only the payload count uses the setting.) -/
theorem c2_payload_amended (cfg : Config) (s : State) (c : Nat) (rest : List Nat)
    (tEnd : Option ℚ) (mnem : String)
    (hd : DATA_COMMANDS c = some mnem)
    (hlen : ¬ (c :: rest).length < 1 + s.address_bytes)
    (hmin : ¬ (0 < cfg.min_address ∧ frameAddress (c :: rest) s.address_bytes < cfg.min_address))
    (hmax : ¬ (cfg.max_address ≠ 0 ∧ cfg.max_address < frameAddress (c :: rest) s.address_bytes)) :
    (classifyDisable cfg s (c :: rest) tEnd).2.1 = some .data_command ∧
    ((classifyDisable cfg s (c :: rest) tEnd).2.2.map fun r => r.num_bytes) =
      some (some (((c :: rest).length : Int) - ((cfg.address_bytes : Int) + 2)
        - (if c = 0x0b then 1 else 0) - (if c = 0xeb then 2 else 0))) ∧
    ((classifyDisable cfg s (c :: rest) tEnd).2.2.map fun r => r.address_end) =
      some (some (pyHexPadInt s.address_format
        ((frameAddress (c :: rest) s.address_bytes : Int)
          + (((c :: rest).length : Int) - ((cfg.address_bytes : Int) + 2)
             - (if c = 0x0b then 1 else 0) - (if c = 0xeb then 2 else 0))))) := by
  have hFR := data_mnem_fastRead c mnem hd
  have hQR := data_mnem_quadRead c mnem hd
  have hnum : ((c :: rest).length : Int) - (cfg.address_bytes : Int)
      - ((2 + (if mnem = "Fast Read" then 1 else 0)
            + (if mnem = "Quad Read" then 2 else 0) : Nat) : Int)
      = ((c :: rest).length : Int) - ((cfg.address_bytes : Int) + 2)
        - (if c = 0x0b then 1 else 0) - (if c = 0xeb then 2 else 0) := by
    simp only [hFR, hQR, apply_ite (Nat.cast : Nat → Int)]
    push_cast
    ring
  refine ⟨?_, ?_, ?_⟩
  · simp only [classifyDisable, List.headD_cons, hd]
    rw [if_neg hlen, if_neg hmin, if_neg hmax]
  · simp only [classifyDisable, List.headD_cons, hd]
    rw [if_neg hlen, if_neg hmin, if_neg hmax]
    simp only [Option.map_some]
    rw [← hnum]
    rfl
  · simp only [classifyDisable, List.headD_cons, hd]
    rw [if_neg hlen, if_neg hmin, if_neg hmax]
    simp only [Option.map_some]
    rw [← hnum]
    rfl

/-- Witness for `c2_payload_amended`: the six-byte `0x13` burst of the
counterexample, with address width mode 4 and setting 3, reports
`num_bytes = 1` and end address `00100001`. -/
theorem c2_witness :
    ((classifyDisable ⟨3, 0, 0, .everything⟩
        { initState with address_bytes := 4, address_format := 8, start_time := some 0 }
        [0x13, 0x00, 0x10, 0x00, 0x00, 0xAA] (some 2)).2.2.map fun r => r.num_bytes)
      = some (some 1) ∧
    ((classifyDisable ⟨3, 0, 0, .everything⟩
        { initState with address_bytes := 4, address_format := 8, start_time := some 0 }
        [0x13, 0x00, 0x10, 0x00, 0x00, 0xAA] (some 2)).2.2.map fun r => r.address_end)
      = some (some "00100001") := by
  have h := c2_payload_amended ⟨3, 0, 0, .everything⟩
      { initState with address_bytes := 4, address_format := 8, start_time := some 0 }
      0x13 [0x00, 0x10, 0x00, 0x00, 0xAA] (some 2) "4-byte READ" rfl
      (by norm_num [initState]) (by norm_num) (by norm_num)
  have hfa : frameAddress [0x13, 0x00, 0x10, 0x00, 0x00, 0xAA] 4 = 1048576 := by decide
  have hs : pyHexPadInt 8 (1048577 : Int) = "00100001" := by
    have hc : hexChars 1048577 = ['1', '0', '0', '0', '0', '1'] := by
      simp [hexChars, hexRev_ge, hexRev_lt, hexDigitChar]
    rw [pyHexPadInt, if_neg (by norm_num), pyHexPadNat,
        show Int.toNat 1048577 = 1048577 from rfl, hc]
    rfl
  obtain ⟨-, h2, h3⟩ := h
  refine ⟨?_, ?_⟩
  · rw [h2]; norm_num
  · rw [h3, hfa]
    norm_num [hs]

/-! ### Claim C3 (confirmed) -/

theorem hexRev_length_le (k : Nat) : ∀ n, 0 < k → n < 16 ^ k → (hexRev n).length ≤ k := by
  induction k with
  | zero => intro n h; omega
  | succ k ih =>
    intro n _ hn
    rw [hexRev]
    by_cases h16 : n < 16
    · simp [h16]
    · rw [if_neg h16]
      have hk : 0 < k := by
        rcases Nat.eq_zero_or_pos k with rfl | hk
        · rw [pow_one] at hn; omega
        · exact hk
      have hdiv : n / 16 < 16 ^ k := by
        rw [Nat.div_lt_iff_lt_mul (by norm_num)]
        calc n < 16 ^ (k + 1) := hn
          _ = 16 ^ k * 16 := by ring
      have := ih (n / 16) hk hdiv
      simp only [List.length_cons]
      omega

theorem pyHexPadNat_length (w n : Nat) (hw : 0 < w) (hn : n < 16 ^ w) :
    (pyHexPadNat w n).length = w := by
  have hle : (hexChars n).length ≤ w := by
    rw [hexChars, List.length_reverse]
    exact hexRev_length_le w n hw hn
  show (List.replicate (w - (hexChars n).length) '0' ++ hexChars n).length = w
  rw [List.length_append, List.length_replicate]
  omega

/-- Claim C3: classifying a burst whose opcode is `0xB7` (Enable 4 Byte
Address) sets the address-width mode to 4 (and the format width to 8 hex
digits); a subsequent data-command burst under that mode resolves its
address big-endian from the 4 bytes following the opcode and formats it
zero-padded to exactly 8 hex digits; classifying a `0xE9` (Exit 4 Byte
Address) burst reverts the mode to 3 (format width 6). -/
theorem c3_address_width_toggle :
    (∀ (cfg : Config) (s : State) (out : Option OutFrame) (t : Option ℚ)
        (rest m0rest : List Nat) (m0 : Nat),
        s.mosi_data = some (0xB7 :: rest) → s.miso_data = some (m0 :: m0rest) →
        (handleFake cfg (s, out) (.disable t)).1.address_bytes = 4 ∧
        (handleFake cfg (s, out) (.disable t)).1.address_format = 8) ∧
    (∀ (cfg : Config) (s : State) (out : Option OutFrame) (t : Option ℚ)
        (rest m0rest : List Nat) (m0 : Nat),
        s.mosi_data = some (0xE9 :: rest) → s.miso_data = some (m0 :: m0rest) →
        (handleFake cfg (s, out) (.disable t)).1.address_bytes = 3 ∧
        (handleFake cfg (s, out) (.disable t)).1.address_format = 6) ∧
    (∀ (cfg : Config) (s : State) (t : Option ℚ) (a b c d : Nat) (rest : List Nat),
        s.address_bytes = 4 → s.address_format = 8 →
        cfg.min_address = 0 → cfg.max_address = 0 →
        a < 256 → b < 256 → c < 256 → d < 256 →
        frameAddress (0x13 :: a :: b :: c :: d :: rest) 4
          = ((a * 256 + b) * 256 + c) * 256 + d ∧
        (classifyDisable cfg s (0x13 :: a :: b :: c :: d :: rest) t).2.1
          = some .data_command ∧
        ((classifyDisable cfg s (0x13 :: a :: b :: c :: d :: rest) t).2.2.map
            fun r => r.address)
          = some (some (pyHexPadNat 8 (((a * 256 + b) * 256 + c) * 256 + d))) ∧
        (pyHexPadNat 8 (((a * 256 + b) * 256 + c) * 256 + d)).length = 8) := by
  refine ⟨?_, ?_, ?_⟩
  · intro cfg s out t rest m0rest m0 hmo hmi
    simp only [handleFake, hmo, hmi]
    constructor <;>
      · split <;>
          simp [classifyDisable, resetBufs, EN4B, EX4B,
                show DATA_COMMANDS 0xB7 = none from rfl]
  · intro cfg s out t rest m0rest m0 hmo hmi
    simp only [handleFake, hmo, hmi]
    constructor <;>
      · split <;>
          simp [classifyDisable, resetBufs, EN4B, EX4B,
                show DATA_COMMANDS 0xE9 = none from rfl]
  · intro cfg s t a b c d rest hab haf hmin hmax ha hb hc hd
    have hfa : frameAddress (0x13 :: a :: b :: c :: d :: rest) 4
        = ((a * 256 + b) * 256 + c) * 256 + d := by
      simp [frameAddress, Nat.shiftLeft_eq]
    have haddr_lt : ((a * 256 + b) * 256 + c) * 256 + d < 16 ^ 8 := by
      norm_num
      omega
    have hlen2 : ¬ (0x13 :: a :: b :: c :: d :: rest).length < 1 + s.address_bytes := by
      rw [hab]
      simp
    refine ⟨hfa, ?_, ?_, pyHexPadNat_length 8 _ (by norm_num) haddr_lt⟩
    · simp only [classifyDisable, List.headD_cons,
        show DATA_COMMANDS 0x13 = some "4-byte READ" from rfl]
      rw [if_neg hlen2, if_neg (by rw [hmin]; simp), if_neg (by rw [hmax]; simp)]
    · simp only [classifyDisable, List.headD_cons,
        show DATA_COMMANDS 0x13 = some "4-byte READ" from rfl]
      rw [if_neg hlen2, if_neg (by rw [hmin]; simp), if_neg (by rw [hmax]; simp)]
      simp only [Option.map_some]
      rw [hab, haf, hfa]
      rfl

/-- Witness for `c3_address_width_toggle`: the spec's example — a `0xB7`
burst switches the mode to 4; then opcode `0x13` with address bytes
`00 10 00 00` resolves to `0x00100000`, formatted as the 8 hex digits
`00100000`; a `0xE9` burst reverts the mode to 3. -/
theorem c3_witness :
    (handleFake ⟨3, 0, 0, .everything⟩
        ({ initState with mosi_data := some [0xB7], miso_data := some [0] }, none)
        (.disable (some 1))).1.address_bytes = 4 ∧
    ((classifyDisable ⟨3, 0, 0, .everything⟩
        { initState with address_bytes := 4, address_format := 8, start_time := some 0 }
        [0x13, 0x00, 0x10, 0x00, 0x00] (some 2)).2.2.map fun r => r.address)
      = some (some "00100000") ∧
    (handleFake ⟨3, 0, 0, .everything⟩
        ({ initState with address_bytes := 4, address_format := 8,
                          mosi_data := some [0xE9], miso_data := some [0] }, none)
        (.disable (some 3))).1.address_bytes = 3 := by
  refine ⟨(c3_address_width_toggle.1 ⟨3, 0, 0, .everything⟩ _ none (some 1) [] [] 0
            rfl rfl).1, ?_,
          (c3_address_width_toggle.2.1 ⟨3, 0, 0, .everything⟩ _ none (some 3) [] [] 0
            rfl rfl).1⟩
  have hv : pyHexPadNat 8 1048576 = "00100000" := by
    have hcx : hexChars 1048576 = ['1', '0', '0', '0', '0', '0'] := by
      simp [hexChars, hexRev_ge, hexRev_lt, hexDigitChar]
    rw [pyHexPadNat, hcx]
    rfl
  have h := (c3_address_width_toggle.2.2 ⟨3, 0, 0, .everything⟩
      { initState with address_bytes := 4, address_format := 8, start_time := some 0 }
      (some 2) 0 0x10 0 0 [] rfl rfl rfl rfl
      (by norm_num) (by norm_num) (by norm_num) (by norm_num)).2.2.1
  rw [h]
  norm_num [hv]

/-! ### Claim C4 (confirmed) -/

/-- The classifier never touches the assembler registers: whatever branch
`classifyDisable` takes, the stored opcode, quad-switch threshold, dummy
count, bit accumulators, clock counter and transaction counter are
unchanged, and both buffers end up `None`. -/
theorem classifyDisable_assembler_fields (cfg : Config) (s : State) (l : List Nat)
    (tEnd : Option ℚ) :
    (classifyDisable cfg s l tEnd).1.command = s.command ∧
    (classifyDisable cfg s l tEnd).1.quad_start = s.quad_start ∧
    (classifyDisable cfg s l tEnd).1.dummy = s.dummy ∧
    (classifyDisable cfg s l tEnd).1.mosi_out = s.mosi_out ∧
    (classifyDisable cfg s l tEnd).1.miso_in = s.miso_in ∧
    (classifyDisable cfg s l tEnd).1.clock_count = s.clock_count ∧
    (classifyDisable cfg s l tEnd).1.transaction = s.transaction ∧
    (classifyDisable cfg s l tEnd).1.miso_data = none ∧
    (classifyDisable cfg s l tEnd).1.mosi_data = none := by
  rcases hD : DATA_COMMANDS (l.headD 0) with _ | mnem <;>
    simp only [classifyDisable, hD] <;> split_ifs <;> simp [resetBufs]

theorem classifyDisable_fst_command (cfg : Config) (s : State) (l : List Nat)
    (tEnd : Option ℚ) : (classifyDisable cfg s l tEnd).1.command = s.command :=
  (classifyDisable_assembler_fields cfg s l tEnd).1

theorem classifyDisable_fst_quad_start (cfg : Config) (s : State) (l : List Nat)
    (tEnd : Option ℚ) : (classifyDisable cfg s l tEnd).1.quad_start = s.quad_start :=
  (classifyDisable_assembler_fields cfg s l tEnd).2.1

theorem classifyDisable_fst_dummy (cfg : Config) (s : State) (l : List Nat)
    (tEnd : Option ℚ) : (classifyDisable cfg s l tEnd).1.dummy = s.dummy :=
  (classifyDisable_assembler_fields cfg s l tEnd).2.2.1

theorem classifyDisable_fst_mosi_out (cfg : Config) (s : State) (l : List Nat)
    (tEnd : Option ℚ) : (classifyDisable cfg s l tEnd).1.mosi_out = s.mosi_out :=
  (classifyDisable_assembler_fields cfg s l tEnd).2.2.2.1

theorem classifyDisable_fst_miso_in (cfg : Config) (s : State) (l : List Nat)
    (tEnd : Option ℚ) : (classifyDisable cfg s l tEnd).1.miso_in = s.miso_in :=
  (classifyDisable_assembler_fields cfg s l tEnd).2.2.2.2.1

theorem classifyDisable_fst_clock_count (cfg : Config) (s : State) (l : List Nat)
    (tEnd : Option ℚ) : (classifyDisable cfg s l tEnd).1.clock_count = s.clock_count :=
  (classifyDisable_assembler_fields cfg s l tEnd).2.2.2.2.2.1

theorem classifyDisable_fst_transaction (cfg : Config) (s : State) (l : List Nat)
    (tEnd : Option ℚ) : (classifyDisable cfg s l tEnd).1.transaction = s.transaction :=
  (classifyDisable_assembler_fields cfg s l tEnd).2.2.2.2.2.2.1

theorem classifyDisable_fst_miso_data (cfg : Config) (s : State) (l : List Nat)
    (tEnd : Option ℚ) : (classifyDisable cfg s l tEnd).1.miso_data = none :=
  (classifyDisable_assembler_fields cfg s l tEnd).2.2.2.2.2.2.2.1

theorem classifyDisable_fst_mosi_data (cfg : Config) (s : State) (l : List Nat)
    (tEnd : Option ℚ) : (classifyDisable cfg s l tEnd).1.mosi_data = none :=
  (classifyDisable_assembler_fields cfg s l tEnd).2.2.2.2.2.2.2.2

/-- Claim C4.  Part one: for a burst whose stored opcode is a continuation
opcode (`CONTINUE_COMMANDS` hit, i.e. `0x6b`, `0xe7` or `0xeb`), the sample
flushing the quad byte at clock-edge index 15 sets the continuous-mode flag
to true if and only if that byte's upper nibble is `0xA`.  Part two: when
the flag is set, the next detected burst start appends the synthetic byte
pair (host-to-device = previous opcode, device-to-host = 0) as the sole
content of the fresh buffers, leaves the stored opcode, quad-switch
threshold, dummy count and bit accumulators unreset, bumps the transaction
counter, and pre-seeds the clock-edge counter to 8 (observed as 9 after the
unconditional increment for the current sample). -/
theorem c4_continuous_mode (cfg : Config) (s : State) (t : ℚ) (data : Nat) :
    ((CONTINUE_COMMANDS s.command).isSome → s.quad_start = some 8 →
      s.clock_count = 15 → s.last_time = some t → 0 ≤ s.fastest_cs →
      data >>> 15 = 0 →
      (decode cfg s t data).1.continuous
        = decide ((((s.quad_data <<< 4) ||| (data &&& 0xf)) &&& 0xf0) = 0xa0)) ∧
    (∀ (c0 m0 : Nat) (cr mr : List Nat),
      s.continuous = true → s.quad_start = some 8 →
      gapOf s t > min (gapOf s t * 4) s.fastest_cs → data >>> 15 = 0 →
      s.mosi_data = some (c0 :: cr) → s.miso_data = some (m0 :: mr) →
      (decode cfg s t data).1.mosi_data = some [s.command] ∧
      (decode cfg s t data).1.miso_data = some [0] ∧
      (decode cfg s t data).1.command = s.command ∧
      (decode cfg s t data).1.quad_start = some 8 ∧
      (decode cfg s t data).1.dummy = s.dummy ∧
      (decode cfg s t data).1.mosi_out = s.mosi_out ∧
      (decode cfg s t data).1.miso_in = s.miso_in ∧
      (decode cfg s t data).1.clock_count = 9 ∧
      (decode cfg s t data).1.transaction = s.transaction + 1) := by
  constructor
  · intro hcmd hq hcc hlast hf hcs
    have hcs1 : data >>> 15 ≠ 1 := by rw [hcs]; norm_num
    rw [decode_noStart cfg s t data (noStart_of_same_time s t hlast hf) hcs1]
    simp only [accumulate, hq, hcc]
    norm_num [hcmd, runFakes, handleFake]
    rcases h1 : s.miso_data with _ | l1 <;> rcases h2 : s.mosi_data with _ | l2 <;> simp
  · intro c0 m0 cr mr hcont hq hg hcs hbm hbi
    rw [decode_start cfg s t data hg hcs]
    simp only [burstStart, hcont]
    norm_num [accumulate, hq]
    by_cases htr : 0 < s.transaction
    · simp only [htr, reduceIte, List.nil_append, List.cons_append, List.append_nil,
        runFakes, List.foldl_cons, List.foldl_nil]
      simp only [handleFake, hbm, hbi]
      split <;>
        simp [handleFake, classifyDisable_fst_command, classifyDisable_fst_quad_start,
          classifyDisable_fst_dummy, classifyDisable_fst_mosi_out, classifyDisable_fst_miso_in,
          classifyDisable_fst_clock_count, classifyDisable_fst_transaction,
          classifyDisable_fst_miso_data, classifyDisable_fst_mosi_data]
    · simp only [htr, reduceIte, List.nil_append, List.cons_append, List.append_nil,
        runFakes, List.foldl_cons, List.foldl_nil]
      simp [handleFake]

/-- State of a burst that has just flushed its mode byte nibble: opcode
`0x6b`, quad phase since edge 8, clock count 15, high nibble `0xa` pending. -/
def c4stateA : State :=
  { initState with command := 0x6b, quad_start := some 8, clock_count := 15,
                   last_time := some 0, fastest_cs := 0, quad_data := 0xa,
                   transaction := 1, dummy := 8,
                   mosi_data := some [0x6b, 1, 2], miso_data := some [0, 0, 0] }

/-- State with the continuous-mode flag set, awaiting the next burst. -/
def c4stateB : State :=
  { initState with continuous := true, command := 0x6b, quad_start := some 8,
                   dummy := 8, transaction := 1, last_time := some 0,
                   fastest_cs := 2000000,
                   mosi_data := some [0x6b], miso_data := some [0] }

/-- Witness for `c4_continuous_mode`: the mode byte `0xa0` sets the flag;
the following burst start emits the synthetic `0x6b`/`0` pair and pre-seeds
the clock counter. -/
theorem c4_witness :
    (decode ⟨3, 0, 0, .everything⟩ c4stateA 0 0).1.continuous = true ∧
    (decode ⟨3, 0, 0, .everything⟩ c4stateB 1 0).1.mosi_data = some [0x6b] ∧
    (decode ⟨3, 0, 0, .everything⟩ c4stateB 1 0).1.miso_data = some [0] ∧
    (decode ⟨3, 0, 0, .everything⟩ c4stateB 1 0).1.clock_count = 9 ∧
    (decode ⟨3, 0, 0, .everything⟩ c4stateB 1 0).1.transaction = 2 := by
  have hgB : gapOf c4stateB 1 > min (gapOf c4stateB 1 * 4) c4stateB.fastest_cs := by
    have h1 : gapOf c4stateB 1 = 1000000000 := by norm_num [gapOf, c4stateB, initState]
    have h2 : min ((1000000000 : ℚ) * 4) (2000000 : ℚ) = 2000000 :=
      min_eq_right (by norm_num)
    rw [h1, show c4stateB.fastest_cs = 2000000 from rfl, h2]
    norm_num
  have hB := (c4_continuous_mode ⟨3, 0, 0, .everything⟩ c4stateB 1 0).2
    0x6b 0 [] [] rfl rfl hgB (by decide) rfl rfl
  have hA := (c4_continuous_mode ⟨3, 0, 0, .everything⟩ c4stateA 0 0).1
    (by decide) rfl rfl rfl le_rfl (by decide)
  refine ⟨?_, hB.1, hB.2.1, hB.2.2.2.2.2.2.2.1, ?_⟩
  · rw [hA]; decide
  · rw [hB.2.2.2.2.2.2.2.2]
    decide

/-! ### Claim C8 (confirmed) -/

/-- The buffer invariant: the two accumulation buffers are `None` together
or are lists of equal length (stated as equality of mapped lengths). -/
def bufInv (s : State) : Prop :=
  s.mosi_data.map List.length = s.miso_data.map List.length

theorem decode_noStart_general (cfg : Config) (s : State) (t : ℚ) (data : Nat)
    (hne : ¬ (gapOf s t > min (gapOf s t * 4) s.fastest_cs ∧ data >>> 15 = 0))
    (hcs : data >>> 15 ≠ 1) :
    decode cfg s t data =
      (let s3 := { s with fastest_cs := min (gapOf s t * 4) s.fastest_cs,
                          last_time := some t }
       let acc := accumulate s3 data
       runFakes cfg { acc.1 with clock_count := acc.1.clock_count + 1 } acc.2) := by
  simp only [decode]
  rw [if_neg hne, if_neg hcs]
  rfl

theorem handleFake_bufInv (cfg : Config) (a : State × Option OutFrame) (f : FFrame)
    (h : bufInv a.1) : bufInv (handleFake cfg a f).1 := by
  obtain ⟨s, out⟩ := a
  cases f with
  | enable t => simp [handleFake, bufInv]
  | result mo mi =>
    rcases h1 : s.miso_data with _ | l1 <;> rcases h2 : s.mosi_data with _ | l2 <;>
      simp_all [handleFake, bufInv, h1, h2]
  | disable tEnd =>
    rcases h1 : s.mosi_data with _ | (_ | ⟨c0, cr⟩) <;>
      rcases h2 : s.miso_data with _ | (_ | ⟨m0, mr⟩) <;>
      simp only [handleFake, h1, h2] <;> try exact h
    have hm := classifyDisable_fst_mosi_data cfg s (c0 :: cr) tEnd
    have hi := classifyDisable_fst_miso_data cfg s (c0 :: cr) tEnd
    split <;> simp [bufInv, hm, hi]

theorem foldl_handleFake_bufInv (cfg : Config) (fs : List FFrame) :
    ∀ a : State × Option OutFrame, bufInv a.1 →
      bufInv (fs.foldl (handleFake cfg) a).1 := by
  induction fs with
  | nil => intro a h; exact h
  | cons f fs ih => intro a h; exact ih _ (handleFake_bufInv cfg a f h)

theorem burstStart_bufs (s1 : State) (t : ℚ) :
    (burstStart s1 t).1.mosi_data = s1.mosi_data ∧
    (burstStart s1 t).1.miso_data = s1.miso_data := by
  simp only [burstStart]
  split <;> exact ⟨rfl, rfl⟩

theorem accumulate_bufs (s : State) (data : Nat) :
    (accumulate s data).1.mosi_data = s.mosi_data ∧
    (accumulate s data).1.miso_data = s.miso_data := by
  rcases hq : s.quad_start with _ | q <;>
    simp only [accumulate, hq] <;>
    split_ifs <;>
    first
      | exact ⟨rfl, rfl⟩
      | (rcases hC : CONTINUE_COMMANDS ((s.mosi_out <<< 1) ||| (data &&& 0x1)) with _ | d <;>
          simp [hC])

theorem bufInv_of_eq (x s : State) (hm : x.mosi_data = s.mosi_data)
    (hi : x.miso_data = s.miso_data) (h : bufInv s) : bufInv x := by
  unfold bufInv at h ⊢
  rw [hm, hi]
  exact h

/-- Claim C8.  Part one: one `decode` call preserves the buffer invariant —
the host-to-device and device-to-host sequences are `None` together or have
equal length (every flush and the synthetic continuous-mode event append
exactly one byte to each).  Part two: a burst whose buffers are missing or
empty produces no record — the `disable` handling returns the accumulator
unchanged. -/
theorem c8_buffer_invariant :
    (∀ (cfg : Config) (s : State) (t : ℚ) (data : Nat),
      bufInv s → bufInv (decode cfg s t data).1) ∧
    (∀ (cfg : Config) (s : State) (out : Option OutFrame) (tEnd : Option ℚ),
      (s.mosi_data = none ∨ s.mosi_data = some [] ∨
       s.miso_data = none ∨ s.miso_data = some []) →
      handleFake cfg (s, out) (.disable tEnd) = (s, out)) := by
  constructor
  · intro cfg s t data h
    by_cases h1 : data >>> 15 = 1
    · rw [decode_cs1 cfg s t data h1]
      exact h
    · by_cases h2 : gapOf s t > min (gapOf s t * 4) s.fastest_cs ∧ data >>> 15 = 0
      · rw [decode_start cfg s t data h2.1 h2.2]
        apply foldl_handleFake_bufInv
        have hbs := burstStart_bufs
          { s with fastest_cs := min (gapOf s t * 4) s.fastest_cs } t
        have hac := accumulate_bufs
          { (burstStart { s with fastest_cs := min (gapOf s t * 4) s.fastest_cs } t).1
              with last_time := some t } data
        exact bufInv_of_eq _ s (by rw [hac.1]; exact hbs.1) (by rw [hac.2]; exact hbs.2) h
      · rw [decode_noStart_general cfg s t data h2 h1]
        apply foldl_handleFake_bufInv
        have hac := accumulate_bufs
          { s with fastest_cs := min (gapOf s t * 4) s.fastest_cs,
                   last_time := some t } data
        exact bufInv_of_eq _ s hac.1 hac.2 h
  · intro cfg s out tEnd hb
    rcases h1 : s.mosi_data with _ | (_ | ⟨c0, cr⟩) <;>
      rcases h2 : s.miso_data with _ | (_ | ⟨m0, mr⟩) <;>
      simp only [handleFake, h1, h2] <;> try rfl
    rcases hb with h | h | h | h <;> simp_all

/-- Witness for `c8_buffer_invariant`: the initial state satisfies the
invariant, one decode step from it keeps the invariant, and a `disable` on
missing buffers emits nothing. -/
theorem c8_witness :
    bufInv initState ∧
    bufInv (decode ⟨3, 0, 0, .everything⟩ initState 0 0).1 ∧
    handleFake ⟨3, 0, 0, .everything⟩ (initState, none) (.disable none)
      = (initState, none) :=
  ⟨rfl, c8_buffer_invariant.1 ⟨3, 0, 0, .everything⟩ initState 0 0 rfl,
   c8_buffer_invariant.2 ⟨3, 0, 0, .everything⟩ initState none none (Or.inl rfl)⟩

/-! ### Claim C9 helpers -/

theorem shiftin_and_one (a x : Nat) : (a <<< 1) ||| (x &&& 1) = 2 * a + (x &&& 1) :=
  shiftin_eq a (x &&& 1) Nat.and_le_right

theorem and_one_and_one (x : Nat) : (x &&& 1) &&& 1 = x &&& 1 := by
  rw [Nat.and_assoc]
  norm_num

theorem bit_hi_zero (x : Nat) : ((x &&& 1) >>> 1) &&& 1 = 0 := by
  have h1 : x &&& 1 ≤ 1 := Nat.and_le_right
  have h2 : (x &&& 1) >>> 1 = 0 := by
    rw [Nat.shiftRight_eq_div_pow]
    omega
  rw [h2]
  rfl

theorem decode1_single_noflush (cfg : Config) (s : State) (bit : Nat) (hb : bit ≤ 1)
    (hlast : s.last_time = some 0) (hf : 0 ≤ s.fastest_cs) (hq : s.quad_start = none)
    (hcc : ¬ s.clock_count % 8 = 7) :
    (decode cfg s 0 bit).1 =
      { s with fastest_cs := 0,
               mosi_out := (s.mosi_out <<< 1) ||| (bit &&& 1),
               miso_in := (s.miso_in <<< 1) ||| ((bit >>> 1) &&& 1),
               clock_count := s.clock_count + 1,
               last_time := some 0 } := by
  have hg0 : gapOf s 0 = 0 := by simp [gapOf, hlast]
  have hmin0 : min (gapOf s 0 * 4) s.fastest_cs = 0 := by
    rw [hg0, zero_mul]
    exact min_eq_left hf
  have hns : ¬ gapOf s 0 > min (gapOf s 0 * 4) s.fastest_cs := by
    rw [hmin0, hg0]
    norm_num
  rw [decode_noStart cfg s 0 bit hns (by rw [small_shr15 bit hb]; norm_num)]
  simp only [accumulate, hq]
  norm_num [hcc, runFakes, hmin0]

theorem decode1_single_flush (cfg : Config) (s : State) (bit : Nat) (hb : bit ≤ 1)
    (hlast : s.last_time = some 0) (hf : 0 ≤ s.fastest_cs) (hq : s.quad_start = none)
    (hcc : s.clock_count % 8 = 7) (hcc7 : ¬ s.clock_count = 7)
    (l m : List Nat) (hl : s.mosi_data = some l) (hm : s.miso_data = some m) :
    (decode cfg s 0 bit).1 =
      { s with fastest_cs := 0, mosi_out := 0, miso_in := 0,
               mosi_data := some (l ++ [(s.mosi_out <<< 1) ||| (bit &&& 1)]),
               miso_data := some (m ++ [(s.miso_in <<< 1) ||| ((bit >>> 1) &&& 1)]),
               clock_count := s.clock_count + 1,
               last_time := some 0 } := by
  have hg0 : gapOf s 0 = 0 := by simp [gapOf, hlast]
  have hmin0 : min (gapOf s 0 * 4) s.fastest_cs = 0 := by
    rw [hg0, zero_mul]
    exact min_eq_left hf
  have hns : ¬ gapOf s 0 > min (gapOf s 0 * 4) s.fastest_cs := by
    rw [hmin0, hg0]
    norm_num
  rw [decode_noStart cfg s 0 bit hns (by rw [small_shr15 bit hb]; norm_num)]
  simp only [accumulate, hq]
  norm_num [hcc, hcc7, runFakes, handleFake, hl, hm, hmin0]

theorem decode1_single_flush7 (cfg : Config) (s : State) (bit : Nat) (hb : bit ≤ 1)
    (hlast : s.last_time = some 0) (hf : 0 ≤ s.fastest_cs) (hq : s.quad_start = none)
    (hcc : s.clock_count = 7)
    (l m : List Nat) (hl : s.mosi_data = some l) (hm : s.miso_data = some m)
    (hC : CONTINUE_COMMANDS ((s.mosi_out <<< 1) ||| (bit &&& 1)) = none) :
    (decode cfg s 0 bit).1 =
      { s with fastest_cs := 0,
               command := (s.mosi_out <<< 1) ||| (bit &&& 1),
               mosi_out := 0, miso_in := 0,
               mosi_data := some (l ++ [(s.mosi_out <<< 1) ||| (bit &&& 1)]),
               miso_data := some (m ++ [(s.miso_in <<< 1) ||| ((bit >>> 1) &&& 1)]),
               clock_count := 8,
               last_time := some 0 } := by
  have hg0 : gapOf s 0 = 0 := by simp [gapOf, hlast]
  have hmin0 : min (gapOf s 0 * 4) s.fastest_cs = 0 := by
    rw [hg0, zero_mul]
    exact min_eq_left hf
  have hns : ¬ gapOf s 0 > min (gapOf s 0 * 4) s.fastest_cs := by
    rw [hmin0, hg0]
    norm_num
  have hC2 : CONTINUE_COMMANDS ((s.mosi_out <<< 1) ||| (bit % 2)) = none := by
    rw [← Nat.and_one_is_mod]
    exact hC
  rw [decode_noStart cfg s 0 bit hns (by rw [small_shr15 bit hb]; norm_num)]
  simp only [accumulate, hq]
  norm_num [hcc, hC, hC2, runFakes, handleFake, hl, hm, hmin0]

theorem assembleByte (b : Nat) (hb : b < 256) :
    ((((((((((((((b >>> 7) &&& 1) <<< 1) ||| ((b >>> 6) &&& 1)) <<< 1) ||| ((b >>> 5) &&& 1)) <<< 1)
      ||| ((b >>> 4) &&& 1)) <<< 1) ||| ((b >>> 3) &&& 1)) <<< 1) ||| ((b >>> 2) &&& 1)) <<< 1)
      ||| ((b >>> 1) &&& 1)) <<< 1 ||| (b &&& 1) = b := by
  simp only [shiftin_and_one]
  simp only [Nat.and_one_is_mod, Nat.shiftRight_eq_div_pow]
  norm_num
  omega

/-- A state in the middle of single-lane byte assembly: threshold already
tightened to 0, timestamps pinned at 0, explicit clock count and bit
accumulators. -/
def midState (s : State) (cc mo mi : Nat) : State :=
  { s with fastest_cs := 0, clock_count := cc, mosi_out := mo, miso_in := mi,
           last_time := some 0 }

/-- The state right after the burst start of the very first sample: fresh
buffers, transaction 1. -/
def opBase : State :=
  { initState with start_time := some 0, miso_data := some [],
                   mosi_data := some [], transaction := 1 }

theorem decode_first_bit (cfg : Config) (bit : Nat) (hb : bit ≤ 1) :
    (decode cfg initState 0 bit).1 =
      { (midState opBase 1 (bit &&& 1) 0) with fastest_cs := 2000000 } := by
  have hshr : bit >>> 1 = 0 := by
    rw [Nat.shiftRight_eq_div_pow]
    omega
  have hmin : min (gapOf initState 0 * 4) initState.fastest_cs = 2000000 := by
    have : gapOf initState 0 = 2000000 * 1000000000 := rfl
    rw [this]
    exact min_eq_right (by norm_num [initState])
  rw [decode_start cfg initState 0 bit (first_sample_gap_gt 0) (small_shr15 bit hb)]
  norm_num [burstStart, initState, accumulate, runFakes, handleFake, hshr, hmin,
    midState, opBase]
  all_goals norm_num [gapOf]

theorem feedBits_append (cfg : Config) (s : State) (l1 l2 : List Nat) :
    feedBits cfg s (l1 ++ l2) = feedBits cfg (feedBits cfg s l1) l2 := by
  simp [feedBits, List.foldl_append]

theorem feedBits_nil (cfg : Config) (s : State) : feedBits cfg s [] = s := rfl

theorem feedBits_cons (cfg : Config) (s : State) (d : Nat) (rest : List Nat) :
    feedBits cfg s (d :: rest) = feedBits cfg (decode cfg s 0 d).1 rest := rfl

theorem midStep (cfg : Config) (s : State) (cc mo mi bit : Nat) (hb : bit ≤ 1)
    (hq : s.quad_start = none) (hcc : ¬ cc % 8 = 7) :
    (decode cfg (midState s cc mo mi) 0 bit).1 =
      midState s (cc + 1) ((mo <<< 1) ||| (bit &&& 1))
        ((mi <<< 1) ||| ((bit >>> 1) &&& 1)) := by
  rw [decode1_single_noflush cfg (midState s cc mo mi) bit hb rfl le_rfl hq hcc]
  simp [midState]

theorem midFlush (cfg : Config) (s : State) (cc mo mi bit : Nat) (hb : bit ≤ 1)
    (hq : s.quad_start = none) (hcc : cc % 8 = 7) (hcc7 : ¬ cc = 7)
    (l m : List Nat) (hl : s.mosi_data = some l) (hm : s.miso_data = some m) :
    (decode cfg (midState s cc mo mi) 0 bit).1 =
      { (midState s (cc + 1) 0 0) with
          mosi_data := some (l ++ [(mo <<< 1) ||| (bit &&& 1)]),
          miso_data := some (m ++ [(mi <<< 1) ||| ((bit >>> 1) &&& 1)]) } := by
  rw [decode1_single_flush cfg (midState s cc mo mi) bit hb rfl le_rfl hq hcc hcc7 l m hl hm]
  simp [midState]

theorem midFlush7 (cfg : Config) (s : State) (mo mi bit : Nat) (hb : bit ≤ 1)
    (hq : s.quad_start = none)
    (l m : List Nat) (hl : s.mosi_data = some l) (hm : s.miso_data = some m)
    (hC : CONTINUE_COMMANDS ((mo <<< 1) ||| (bit &&& 1)) = none) :
    (decode cfg (midState s 7 mo mi) 0 bit).1 =
      { (midState s 8 0 0) with
          command := (mo <<< 1) ||| (bit &&& 1),
          mosi_data := some (l ++ [(mo <<< 1) ||| (bit &&& 1)]),
          miso_data := some (m ++ [(mi <<< 1) ||| ((bit >>> 1) &&& 1)]) } := by
  rw [decode1_single_flush7 cfg (midState s 7 mo mi) bit hb rfl le_rfl hq rfl l m hl hm hC]
  simp [midState]

theorem feedBits_byte (cfg : Config) (s : State) (cc b : Nat) (l m : List Nat)
    (hb : b < 256) (hq : s.quad_start = none)
    (hcc8 : cc % 8 = 0) (hcc0 : cc ≠ 0)
    (hl : s.mosi_data = some l) (hm : s.miso_data = some m) :
    feedBits cfg (midState s cc 0 0) (byteBits b) =
      { (midState s (cc + 8) 0 0) with
          mosi_data := some (l ++ [b]), miso_data := some (m ++ [0]) } := by
  simp only [byteBits]
  rw [feedBits_cons, midStep cfg s cc 0 0 _ Nat.and_le_right hq (by omega)]
  rw [feedBits_cons, midStep cfg s (cc + 1) _ _ _ Nat.and_le_right hq (by omega)]
  rw [feedBits_cons, midStep cfg s (cc + 1 + 1) _ _ _ Nat.and_le_right hq (by omega)]
  rw [feedBits_cons, midStep cfg s (cc + 1 + 1 + 1) _ _ _ Nat.and_le_right hq (by omega)]
  rw [feedBits_cons, midStep cfg s (cc + 1 + 1 + 1 + 1) _ _ _ Nat.and_le_right hq (by omega)]
  rw [feedBits_cons, midStep cfg s (cc + 1 + 1 + 1 + 1 + 1) _ _ _ Nat.and_le_right hq
      (by omega)]
  rw [feedBits_cons, midStep cfg s (cc + 1 + 1 + 1 + 1 + 1 + 1) _ _ _ Nat.and_le_right hq
      (by omega)]
  rw [feedBits_cons, midFlush cfg s (cc + 1 + 1 + 1 + 1 + 1 + 1 + 1) _ _ _ Nat.and_le_right
      hq (by omega) (by omega) l m hl hm]
  rw [feedBits_nil]
  simp only [and_one_and_one, bit_hi_zero, Nat.zero_shiftLeft, Nat.zero_or, Nat.or_zero,
    assembleByte b hb]

theorem decode_second_bit (cfg : Config) (b7 b6 : Nat) (hb : b6 ≤ 1) :
    (decode cfg ({ (midState opBase 1 b7 0) with fastest_cs := 2000000 }) 0 b6).1
      = midState opBase (1 + 1) ((b7 <<< 1) ||| (b6 &&& 1))
          ((0 <<< 1) ||| ((b6 >>> 1) &&& 1)) := by
  rw [decode1_single_noflush cfg _ b6 hb rfl (by norm_num) rfl (by simp [midState])]
  simp [midState, opBase]

theorem feedBits_opcode (cfg : Config) (op : Nat) (hop : op < 256)
    (hC : CONTINUE_COMMANDS op = none) :
    feedBits cfg initState (byteBits op) =
      { initState with start_time := some 0, miso_data := some [0],
                       mosi_data := some [op], last_time := some 0,
                       transaction := 1, clock_count := 8,
                       fastest_cs := 0, command := op } := by
  have hasm := assembleByte op hop
  simp only [byteBits]
  rw [feedBits_cons, decode_first_bit cfg _ Nat.and_le_right]
  rw [feedBits_cons, decode_second_bit cfg _ _ Nat.and_le_right]
  rw [feedBits_cons, midStep cfg opBase (1 + 1) _ _ _ Nat.and_le_right rfl (by norm_num)]
  rw [feedBits_cons, midStep cfg opBase (1 + 1 + 1) _ _ _ Nat.and_le_right rfl (by norm_num)]
  rw [feedBits_cons, midStep cfg opBase (1 + 1 + 1 + 1) _ _ _ Nat.and_le_right rfl
      (by norm_num)]
  rw [feedBits_cons, midStep cfg opBase (1 + 1 + 1 + 1 + 1) _ _ _ Nat.and_le_right rfl
      (by norm_num)]
  rw [feedBits_cons, midStep cfg opBase (1 + 1 + 1 + 1 + 1 + 1) _ _ _ Nat.and_le_right rfl
      (by norm_num)]
  rw [show (1 + 1 + 1 + 1 + 1 + 1 + 1 : Nat) = 7 by norm_num]
  rw [feedBits_cons, midFlush7 cfg opBase _ _ _ Nat.and_le_right rfl [] [] rfl rfl
      (by simp only [and_one_and_one, Nat.zero_shiftLeft, Nat.zero_or, hasm]; exact hC)]
  rw [feedBits_nil]
  simp only [and_one_and_one, bit_hi_zero, Nat.zero_shiftLeft, Nat.zero_or, Nat.or_zero,
    hasm]
  simp [midState, opBase, initState]

theorem feedBits_bytes (cfg : Config) (bs : List Nat) :
    ∀ (s : State) (cc : Nat) (l m : List Nat),
      (∀ b ∈ bs, b < 256) → s.quad_start = none →
      cc % 8 = 0 → cc ≠ 0 →
      s.mosi_data = some l → s.miso_data = some m →
      (feedBits cfg (midState s cc 0 0) (byteStreamBits bs)).mosi_data = some (l ++ bs) := by
  induction bs with
  | nil =>
    intro s cc l m _ _ _ _ hl _
    simpa [feedBits, byteStreamBits, midState] using hl
  | cons b bs ih =>
    intro s cc l m hb hq hcc8 hcc0 hl hm
    rw [show byteStreamBits (b :: bs) = byteBits b ++ byteStreamBits bs from rfl,
        feedBits_append,
        feedBits_byte cfg s cc b l m (hb b (by simp)) hq hcc8 hcc0 hl hm]
    have hre : ({ (midState s (cc + 8) 0 0) with
                  mosi_data := some (l ++ [b]), miso_data := some (m ++ [0]) } : State)
        = midState { s with mosi_data := some (l ++ [b]),
                            miso_data := some (m ++ [0]) } (cc + 8) 0 0 := rfl
    rw [hre, ih { s with mosi_data := some (l ++ [b]), miso_data := some (m ++ [0]) }
          (cc + 8) (l ++ [b]) (m ++ [0])
          (fun b' h' => hb b' (by simp [h'])) hq (by omega) (by omega) rfl rfl]
    simp

/-! ### Claim C9 (confirmed) -/

/-- Claim C9: for every opcode outside the continuation table and every list
of following bytes, feeding the corresponding single-lane bit samples
(MSB first, 8 edges per byte, chip select asserted) through `decode` within
one burst reproduces exactly those bytes, in order, after the opcode in the
burst's host-to-device sequence. -/
theorem c9_single_lane_roundtrip (cfg : Config) (op : Nat) (bs : List Nat)
    (hop : op < 256) (hC : CONTINUE_COMMANDS op = none)
    (hbs : ∀ b ∈ bs, b < 256) :
    (feedBits cfg initState (byteStreamBits (op :: bs))).mosi_data = some (op :: bs) := by
  rw [show byteStreamBits (op :: bs) = byteBits op ++ byteStreamBits bs from rfl,
      feedBits_append, feedBits_opcode cfg op hop hC]
  have hre : ({ initState with start_time := some 0, miso_data := some [0],
                               mosi_data := some [op], last_time := some 0,
                               transaction := 1, clock_count := 8,
                               fastest_cs := 0, command := op } : State)
      = midState { opBase with miso_data := some [0], mosi_data := some [op],
                               command := op } 8 0 0 := rfl
  rw [hre, feedBits_bytes cfg bs _ 8 [op] [0] hbs rfl (by norm_num) (by norm_num) rfl rfl]
  simp

/-- Witness for `c9_single_lane_roundtrip`: opcode `0x03` followed by the
bytes `0xAB` and `0x10`. -/
theorem c9_witness :
    (feedBits ⟨3, 0, 0, .everything⟩ initState
        (byteStreamBits [0x03, 0xAB, 0x10])).mosi_data = some [0x03, 0xAB, 0x10] :=
  c9_single_lane_roundtrip ⟨3, 0, 0, .everything⟩ 0x03 [0xAB, 0x10]
    (by norm_num) (by decide) (by decide)

end SPIFlash
